import Mathlib

/-!
Verification of the NextflowForge document assembler.

The repository's single source file defines `generate_nextflow_file`, a
function that assembles a Nextflow workflow file from six structured
inputs collected by a form UI.  This development embeds that function and
its section structure in Lean and proves the specified properties of the
generated text.

Modelling notes:
* Python dictionaries whose keys may be absent are modelled with `Option`
  fields; reading an absent key raises `KeyError` in Python, modelled as
  `Except.error`.  The UI only sets `docker_image` when the container
  choice is Docker and only sets `conda_file_name` when a Conda file was
  uploaded, so exactly these two fields are optional.
* The `output_config` argument is tested for truthiness (`if output_config:`),
  so an absent or empty dictionary is modelled as `none`.
* Each `content += ...` statement of the source is one emitted chunk; the
  chunk lists (`outputChunks`, `schedulerChunks`, `emittedParamLines`) make
  the emission-level structure of a section available to the theorems,
  and the section strings are their concatenations.
-/

namespace NextflowForge

/-- Project information record (`project_info` dictionary): all four keys are
read unconditionally by the assembler and always supplied by the UI. -/
structure ProjectInfo where
  name : String
  description : String
  author_name : String
  author_email : String
deriving DecidableEq

/-- Parameter record as built by `collect_parameters`: name, type (one of the
selectbox strings), default value and description, all strings. -/
structure Parameter where
  name : String
  type : String
  default : String
  description : String
deriving DecidableEq

/-- Process record as built by `collect_processes`. -/
structure Process where
  name : String
  command : String
  input : String
  output : String
deriving DecidableEq

/-- Environment record: `container` is always present (selectbox), while
`docker_image` is set only for the Docker choice and `conda_file_name` only
when a Conda file was actually uploaded, hence the `Option` fields. -/
structure EnvironmentConfig where
  container : String
  docker_image : Option String
  conda_file_name : Option String
deriving DecidableEq

/-- Output configuration record: all three keys are always present when the
dictionary is non-empty. -/
structure OutputConfig where
  output_dir : String
  generate_logs : Bool
  file_naming : String
deriving DecidableEq

/-- Scheduler record: both keys are always supplied by the UI. -/
structure SchedulerConfig where
  scheduler : String
  queue : String
deriving DecidableEq

/-- Reading a possibly-absent dictionary key: `some` yields the value,
`none` raises a `KeyError` naming the key, as Python does. -/
def getKey : Option String → String → Except String String
  | some v, _ => Except.ok v
  | none, k => Except.error ("KeyError: " ++ k)

/-- Concatenation of a list of emitted chunks into the content string. -/
def joinAll : List String → String
  | [] => ""
  | s :: rest => s ++ joinAll rest

/-- Header comment lines (source lines 21-25): three comment lines from the
project information, emitted unconditionally. -/
def headerText (p : ProjectInfo) : String :=
  "// Nextflow Workflow - " ++ p.name ++ "\n" ++
  "// Description: " ++ p.description ++ "\n" ++
  "// Author: " ++ p.author_name ++ " (" ++ p.author_email ++ ")\n\n"

/-- One parameter line (source lines 30-36): `  <name> = <value> // <descr>`,
the value single-quoted exactly when the type is the string "String". -/
def paramLine (p : Parameter) : String :=
  "  " ++ p.name ++ " = " ++
    (if p.type = "String" then "'" ++ p.default ++ "'" else p.default) ++
    " // " ++ p.description ++ "\n"

/-- The parameter lines emitted inside the params block, one per list
element in list order. -/
def emittedParamLines (ps : List Parameter) : List String :=
  ps.map paramLine

/-- The params block (source lines 28-37): absent when the list is empty,
otherwise the emitted lines wrapped in the `params` delimiter pair. -/
def paramsSection (ps : List Parameter) : String :=
  match ps with
  | [] => ""
  | _ => "params \x7b\n" ++ joinAll (emittedParamLines ps) ++ "\x7d\n\n"

/-- Environment section (source lines 40-43).  The Docker branch reads the
`docker_image` key; the Conda branch evaluates `environment["conda_file_name"]`
as part of its condition (a `KeyError` when the key is absent) and emits the
conda line only when that value is truthy, i.e. a non-empty string.  Every
other container value falls through and emits nothing. -/
def envSection (e : EnvironmentConfig) : Except String String :=
  if e.container = "Docker" then
    (getKey e.docker_image "docker_image").map
      (fun img => "process.container = '" ++ (img ++ "'\n\n"))
  else if e.container = "Conda" then
    (getKey e.conda_file_name "conda_file_name").map
      (fun f => if f = "" then "" else "process.conda = '" ++ (f ++ "'\n\n"))
  else Except.ok ""

/-- Chunks of the output-configuration block (source lines 46-52), one per
`content +=` statement: skipped entirely for an absent or empty record,
otherwise the publish-directory line unconditionally, the debug line when
`generate_logs` is true, the file-pattern line when `file_naming` is
non-empty, and the closing blank line. -/
def outputChunks : Option OutputConfig → List String
  | none => []
  | some c =>
    ["process.publishDir = '" ++ (c.output_dir ++ "'\n")] ++
    (if c.generate_logs then ["process.debug = true\n"] else []) ++
    (if c.file_naming = "" then [] else
      ["process.filePattern = '" ++ (c.file_naming ++ "'\n")]) ++
    ["\n"]

/-- The output-configuration block as a string. -/
def outputSection (oc : Option OutputConfig) : String :=
  joinAll (outputChunks oc)

/-- One process block (source lines 55-63): name, input spec, output spec and
the raw command inside a triple-quoted script body, all verbatim. -/
def processBlock (p : Process) : String :=
  "process " ++ p.name ++ " \x7b\n" ++
  "  input:\n" ++ "    " ++ p.input ++ "\n" ++
  "  output:\n" ++ "    " ++ p.output ++ "\n" ++
  "  script:\n" ++ "    \"\"\"\n" ++ p.command ++ "\n\"\"\"\n" ++
  "\x7d\n\n"

/-- The process blocks, concatenated in list order, one per element. -/
def processesSection (ps : List Process) : String :=
  joinAll (ps.map processBlock)

/-- Chunks of the scheduler block (source lines 66-71): nothing when the
scheduler is "None", otherwise the comment line, the executor line, the
queue line when the queue string is non-empty, and the closing blank line. -/
def schedulerChunks (s : SchedulerConfig) : List String :=
  if s.scheduler = "None" then []
  else
    ["// Scheduler Settings\n", "process.executor = '" ++ (s.scheduler ++ "'\n")] ++
    (if s.queue = "" then [] else ["process.queue = '" ++ (s.queue ++ "'\n")]) ++
    ["\n"]

/-- The scheduler block as a string. -/
def schedulerSection (s : SchedulerConfig) : String :=
  joinAll (schedulerChunks s)

/-- The document assembler (source lines 5-73): header, params block,
environment line, output block, process blocks and scheduler block,
concatenated in this fixed order.  The only failure paths are the two
dictionary reads of the environment section. -/
def generate_nextflow_file (project_info : ProjectInfo) (parameters : List Parameter)
    (processes : List Process) (environment : EnvironmentConfig)
    (output_config : Option OutputConfig) (scheduler : SchedulerConfig) :
    Except String String :=
  match envSection environment with
  | Except.error e => Except.error e
  | Except.ok envStr =>
    Except.ok (headerText project_info ++ paramsSection parameters ++ envStr ++
      outputSection output_config ++ processesSection processes ++
      schedulerSection scheduler)

/-- Substring containment: `s` occurs contiguously inside `t` (stated on the
underlying character lists, so that associativity of append is invisible). -/
def ContainsStr (s t : String) : Prop :=
  ∃ pre post : List Char, t.data = pre ++ (s.data ++ post)

theorem containsStr_self (s : String) : ContainsStr s s :=
  ⟨[], [], by simp⟩

theorem containsStr_append_left (A : String) {s B : String}
    (h : ContainsStr s B) : ContainsStr s (A ++ B) := by
  obtain ⟨pre, post, hB⟩ := h
  exact ⟨A.data ++ pre, post, by simp [String.data_append, hB]⟩

theorem containsStr_append_right (C : String) {s B : String}
    (h : ContainsStr s B) : ContainsStr s (B ++ C) := by
  obtain ⟨pre, post, hB⟩ := h
  exact ⟨pre, post ++ C.data, by simp [String.data_append, hB]⟩

theorem containsStr_prefix (s rest : String) : ContainsStr s (s ++ rest) :=
  containsStr_append_right rest (containsStr_self s)

theorem containsStr_trans {a b c : String} (h₁ : ContainsStr a b)
    (h₂ : ContainsStr b c) : ContainsStr a c := by
  obtain ⟨p₁, q₁, hb⟩ := h₁
  obtain ⟨p₂, q₂, hc⟩ := h₂
  exact ⟨p₂ ++ p₁, q₁ ++ q₂, by simp [hc, hb]⟩

theorem containsStr_joinAll {s : String} {l : List String} (h : s ∈ l) :
    ContainsStr s (joinAll l) := by
  induction l with
  | nil => cases h
  | cons a t ih =>
    cases h with
    | head => exact containsStr_prefix s (joinAll t)
    | tail _ hmem => exact containsStr_append_left a (ih hmem)

theorem generate_eq (pi : ProjectInfo) (ps : List Parameter) (procs : List Process)
    (env : EnvironmentConfig) (oc : Option OutputConfig) (sch : SchedulerConfig)
    (envStr : String) (h : envSection env = Except.ok envStr) :
    generate_nextflow_file pi ps procs env oc sch =
      Except.ok (headerText pi ++ paramsSection ps ++ envStr ++
        outputSection oc ++ processesSection procs ++ schedulerSection sch) := by
  unfold generate_nextflow_file
  rw [h]

theorem generate_ok_inv (pi : ProjectInfo) (ps : List Parameter) (procs : List Process)
    (env : EnvironmentConfig) (oc : Option OutputConfig) (sch : SchedulerConfig)
    (out : String) (h : generate_nextflow_file pi ps procs env oc sch = Except.ok out) :
    ∃ envStr, envSection env = Except.ok envStr ∧
      out = headerText pi ++ paramsSection ps ++ envStr ++
        outputSection oc ++ processesSection procs ++ schedulerSection sch := by
  unfold generate_nextflow_file at h
  cases he : envSection env with
  | error e => rw [he] at h; cases h
  | ok s =>
    rw [he] at h
    cases h
    exact ⟨s, rfl, rfl⟩

theorem ne_of_data_get (s t : String) (i : Nat) (h : s.data[i]? ≠ t.data[i]?) :
    s ≠ t :=
  fun he => h (by rw [he])

theorem data_get_left (p r : String) (i : Nat) (hi : i < p.data.length) :
    (p ++ r).data[i]? = p.data[i]? := by
  rw [String.data_append]
  exact List.getElem?_append_left hi

theorem append_ne_lit (p r t : String) (i : Nat) (hip : i < p.data.length)
    (h : p.data[i]? ≠ t.data[i]?) : p ++ r ≠ t :=
  ne_of_data_get _ _ i (by rw [data_get_left p r i hip]; exact h)

theorem append_ne_append (p r q u : String) (i : Nat) (hip : i < p.data.length)
    (hiq : i < q.data.length) (h : p.data[i]? ≠ q.data[i]?) : p ++ r ≠ q ++ u :=
  ne_of_data_get _ _ i
    (by rw [data_get_left p r i hip, data_get_left q u i hiq]; exact h)

/-- C1.  The spec claims `generate_nextflow_file` is total and never fails even
when optional fields are absent.  The code contradicts this: with
container = "Conda" and no uploaded file (so no `conda_file_name` key, the
exact dictionary the UI builds in that situation), the condition on source
line 42 reads the absent key and raises `KeyError`.  This theorem evaluates
the embedded assembler at that failing input. -/
theorem C1_conda_absent_key_fails :
    generate_nextflow_file ⟨"", "", "", ""⟩ [] [] ⟨"Conda", none, none⟩ none
      ⟨"None", ""⟩ = Except.error "KeyError: conda_file_name" := rfl

/-- C2 counterexample.  The claim says the number of emitted parameter lines
equals the number of parameters with non-empty name and default, for every
list given to the assembler.  A list holding one parameter with empty name
and default refutes it: the assembler still emits one line for it. -/
theorem C2_counterexample :
    (emittedParamLines [⟨"", "String", "", ""⟩]).length ≠
      (([⟨"", "String", "", ""⟩] : List Parameter).filter
        (fun p => p.name != "" && p.default != "")).length := by decide

/-- C2 amended: the assembler emits exactly one parameter line per element of
the list it is given, so for every list the emitted-line count equals the
list length; it equals the count of parameters with non-empty name and
default under the additional assumption that every element passes that check
(which the UI collector guarantees for the lists it builds, but the
assembler itself never verifies). -/
theorem C2_param_line_count (ps : List Parameter) :
    (emittedParamLines ps).length = ps.length ∧
    ((∀ p ∈ ps, p.name ≠ "" ∧ p.default ≠ "") →
      (emittedParamLines ps).length =
        (ps.filter (fun p => p.name != "" && p.default != "")).length) := by
  refine ⟨by simp [emittedParamLines], ?_⟩
  intro h
  have hfilter : ps.filter (fun p => p.name != "" && p.default != "") = ps := by
    apply List.filter_eq_self.mpr
    intro p hp
    simp only [Bool.and_eq_true, bne_iff_ne, ne_eq]
    exact ⟨(h p hp).1, (h p hp).2⟩
  rw [hfilter]
  simp [emittedParamLines]

theorem C2_witness :
    ((emittedParamLines [⟨"", "String", "", ""⟩]).length =
        ([⟨"", "String", "", ""⟩] : List Parameter).length)
  ∧ ((emittedParamLines [⟨"a", "String", "1", "d"⟩]).length =
        (([⟨"a", "String", "1", "d"⟩] : List Parameter).filter
          (fun p => p.name != "" && p.default != "")).length) :=
  ⟨(C2_param_line_count [⟨"", "String", "", ""⟩]).1,
   (C2_param_line_count [⟨"a", "String", "1", "d"⟩]).2 (by decide)⟩

/-- C8.  The assembler is deterministic: it is a pure function of its six
arguments (the source reads nothing besides them: no clock, randomness or
ambient state), so identical inputs yield byte-identical output. -/
theorem C8_deterministic (pi₁ pi₂ : ProjectInfo) (ps₁ ps₂ : List Parameter)
    (pr₁ pr₂ : List Process) (e₁ e₂ : EnvironmentConfig)
    (oc₁ oc₂ : Option OutputConfig) (s₁ s₂ : SchedulerConfig)
    (h₁ : pi₁ = pi₂) (h₂ : ps₁ = ps₂) (h₃ : pr₁ = pr₂) (h₄ : e₁ = e₂)
    (h₅ : oc₁ = oc₂) (h₆ : s₁ = s₂) :
    generate_nextflow_file pi₁ ps₁ pr₁ e₁ oc₁ s₁ =
      generate_nextflow_file pi₂ ps₂ pr₂ e₂ oc₂ s₂ := by
  subst h₁ h₂ h₃ h₄ h₅ h₆
  rfl

theorem C8_witness :
    generate_nextflow_file ⟨"p", "d", "a", "e"⟩ [⟨"n", "String", "v", "c"⟩] []
        ⟨"None", none, none⟩ none ⟨"SLURM", "q"⟩ =
      generate_nextflow_file ⟨"p", "d", "a", "e"⟩ [⟨"n", "String", "v", "c"⟩] []
        ⟨"None", none, none⟩ none ⟨"SLURM", "q"⟩ :=
  C8_deterministic _ _ _ _ _ _ _ _ _ _ _ _ rfl rfl rfl rfl rfl rfl

/-- C3.  Case analysis of the environment section: for Docker (with the image
the UI supplies) the section is exactly the one container-image assignment
line built from `docker_image`; for Conda with a non-empty file name present
it is exactly the one conda assignment line; for every other container value
(Singularity, None, or anything unrecognized) it is empty and no error is
signaled; and whatever the section is, it appears verbatim in the generated
output. -/
theorem C3_environment_lines (e : EnvironmentConfig) :
    (∀ img, e.container = "Docker" → e.docker_image = some img →
      envSection e = Except.ok ("process.container = '" ++ (img ++ "'\n\n")))
  ∧ (∀ f, e.container = "Conda" → e.conda_file_name = some f → f ≠ "" →
      envSection e = Except.ok ("process.conda = '" ++ (f ++ "'\n\n")))
  ∧ (e.container ≠ "Docker" → e.container ≠ "Conda" →
      envSection e = Except.ok "")
  ∧ (∀ pi ps procs oc sch envStr out, envSection e = Except.ok envStr →
      generate_nextflow_file pi ps procs e oc sch = Except.ok out →
      ContainsStr envStr out) := by
  refine ⟨?_, ?_, ?_, ?_⟩
  · intro img hc hd
    simp [envSection, hc, hd, getKey, Except.map]
  · intro f hc hf hne
    have hnotd : ¬ (e.container = "Docker") := by rw [hc]; decide
    simp [envSection, hc, hnotd, hf, getKey, hne, Except.map]
  · intro h1 h2
    simp [envSection, h1, h2]
  · intro pi ps procs oc sch envStr out henv hgen
    obtain ⟨envStr', henv', hout⟩ := generate_ok_inv pi ps procs e oc sch out hgen
    rw [henv] at henv'
    cases henv'
    subst hout
    apply containsStr_append_right
    apply containsStr_append_right
    apply containsStr_append_right
    apply containsStr_append_left
    exact containsStr_self envStr

theorem C3_witness :
    envSection ⟨"Docker", some "img:v1", none⟩ =
        Except.ok ("process.container = '" ++ ("img:v1" ++ "'\n\n"))
  ∧ envSection ⟨"Conda", none, some "env.yml"⟩ =
        Except.ok ("process.conda = '" ++ ("env.yml" ++ "'\n\n"))
  ∧ envSection ⟨"Singularity", none, none⟩ = Except.ok "" :=
  ⟨(C3_environment_lines ⟨"Docker", some "img:v1", none⟩).1 "img:v1" rfl rfl,
   (C3_environment_lines ⟨"Conda", none, some "env.yml"⟩).2.1 "env.yml" rfl rfl
     (by decide),
   (C3_environment_lines ⟨"Singularity", none, none⟩).2.2.1 (by decide) (by decide)⟩

/-- C9.  The assembler reads `docker_image` only under the Docker branch and
`conda_file_name` only under the Conda branch, so when the container is
neither "Docker" nor "Conda" the generated output does not depend on those
two fields at all, and the call succeeds even when both are absent. -/
theorem C9_env_fields_unread (pi : ProjectInfo) (ps : List Parameter)
    (procs : List Process) (c : String) (d₁ d₂ c₁ c₂ : Option String)
    (oc : Option OutputConfig) (sch : SchedulerConfig)
    (h₁ : c ≠ "Docker") (h₂ : c ≠ "Conda") :
    generate_nextflow_file pi ps procs ⟨c, d₁, c₁⟩ oc sch =
      generate_nextflow_file pi ps procs ⟨c, d₂, c₂⟩ oc sch
  ∧ ∃ out, generate_nextflow_file pi ps procs ⟨c, none, none⟩ oc sch =
      Except.ok out := by
  have he : ∀ d cc, envSection ⟨c, d, cc⟩ = Except.ok "" := by
    intro d cc
    simp [envSection, h₁, h₂]
  constructor
  · rw [generate_eq pi ps procs _ oc sch "" (he d₁ c₁),
      generate_eq pi ps procs _ oc sch "" (he d₂ c₂)]
  · exact ⟨_, generate_eq pi ps procs _ oc sch "" (he none none)⟩

theorem C9_witness :
    (generate_nextflow_file ⟨"", "", "", ""⟩ [] []
        ⟨"Singularity", some "img", some "env.yml"⟩ none ⟨"None", ""⟩ =
      generate_nextflow_file ⟨"", "", "", ""⟩ [] []
        ⟨"Singularity", none, none⟩ none ⟨"None", ""⟩)
  ∧ ∃ out, generate_nextflow_file ⟨"", "", "", ""⟩ [] []
        ⟨"Singularity", none, none⟩ none ⟨"None", ""⟩ = Except.ok out :=
  C9_env_fields_unread ⟨"", "", "", ""⟩ [] [] "Singularity" (some "img") none
    (some "env.yml") none none ⟨"None", ""⟩ (by decide) (by decide)

theorem paramLine_in_paramsSection {p : Parameter} {ps : List Parameter}
    (hp : p ∈ ps) : ContainsStr (paramLine p) (paramsSection ps) := by
  cases ps with
  | nil => cases hp
  | cons a t =>
    show ContainsStr (paramLine p)
      ("params \x7b\n" ++ joinAll (emittedParamLines (a :: t)) ++ "\x7d\n\n")
    apply containsStr_append_right
    apply containsStr_append_left
    exact containsStr_joinAll (List.mem_map_of_mem paramLine hp)

theorem paramLine_in_output {pi : ProjectInfo} {ps : List Parameter}
    {procs : List Process} {env : EnvironmentConfig} {oc : Option OutputConfig}
    {sch : SchedulerConfig} {out : String} {p : Parameter}
    (hgen : generate_nextflow_file pi ps procs env oc sch = Except.ok out)
    (hp : p ∈ ps) : ContainsStr (paramLine p) out := by
  obtain ⟨envStr, henv, hout⟩ := generate_ok_inv pi ps procs env oc sch out hgen
  subst hout
  apply containsStr_append_right
  apply containsStr_append_right
  apply containsStr_append_right
  apply containsStr_append_right
  apply containsStr_append_left
  exact paramLine_in_paramsSection hp

/-- C4.  Every parameter of the supplied list yields a line of the form
`  <name> = <value> // <description>` in the generated output, where the
value is the default wrapped in single quotes exactly when the type is
"String" and the default text verbatim otherwise. -/
theorem C4_param_line_shape (pi : ProjectInfo) (ps : List Parameter)
    (procs : List Process) (env : EnvironmentConfig) (oc : Option OutputConfig)
    (sch : SchedulerConfig) (out : String) (p : Parameter)
    (hgen : generate_nextflow_file pi ps procs env oc sch = Except.ok out)
    (hp : p ∈ ps) :
    ContainsStr ("  " ++ p.name ++ " = " ++
      (if p.type = "String" then "'" ++ p.default ++ "'" else p.default) ++
      " // " ++ p.description ++ "\n") out :=
  paramLine_in_output hgen hp

theorem C4_witness :
    ContainsStr ("  " ++ "x" ++ " = " ++
      (if "String" = "String" then "'" ++ "a'b" ++ "'" else "a'b") ++
      " // " ++ "d" ++ "\n")
      (headerText ⟨"", "", "", ""⟩ ++ paramsSection [⟨"x", "String", "a'b", "d"⟩] ++
        "" ++ outputSection none ++ processesSection [] ++
        schedulerSection ⟨"None", ""⟩) :=
  C4_param_line_shape ⟨"", "", "", ""⟩ [⟨"x", "String", "a'b", "d"⟩] []
    ⟨"None", none, none⟩ none ⟨"None", ""⟩ _ ⟨"x", "String", "a'b", "d"⟩ rfl
    (by decide)

/-- C6.  The generated output ends with the process blocks followed by the
scheduler block: exactly one block per process, in list order (a plain map
over the list, with no sorting, deduplication or name checks), each block
holding its own name, input spec, output spec and raw command verbatim. -/
theorem C6_process_blocks (pi : ProjectInfo) (ps : List Parameter)
    (procs : List Process) (env : EnvironmentConfig) (oc : Option OutputConfig)
    (sch : SchedulerConfig) (out : String)
    (hgen : generate_nextflow_file pi ps procs env oc sch = Except.ok out) :
    ∃ pre, out = pre ++ joinAll (procs.map (fun p =>
        "process " ++ p.name ++ " \x7b\n" ++
        "  input:\n" ++ "    " ++ p.input ++ "\n" ++
        "  output:\n" ++ "    " ++ p.output ++ "\n" ++
        "  script:\n" ++ "    \"\"\"\n" ++ p.command ++ "\n\"\"\"\n" ++
        "\x7d\n\n")) ++ schedulerSection sch := by
  obtain ⟨envStr, henv, hout⟩ := generate_ok_inv pi ps procs env oc sch out hgen
  exact ⟨headerText pi ++ paramsSection ps ++ envStr ++ outputSection oc, hout⟩

theorem C6_witness :
    ∃ pre, headerText ⟨"", "", "", ""⟩ ++ paramsSection [] ++ "" ++
        outputSection none ++
        processesSection [⟨"align", "bwa mem", "ref.fa", "out.bam"⟩] ++
        schedulerSection ⟨"None", ""⟩ =
      pre ++ joinAll (([⟨"align", "bwa mem", "ref.fa", "out.bam"⟩] :
          List Process).map (fun p =>
        "process " ++ p.name ++ " \x7b\n" ++
        "  input:\n" ++ "    " ++ p.input ++ "\n" ++
        "  output:\n" ++ "    " ++ p.output ++ "\n" ++
        "  script:\n" ++ "    \"\"\"\n" ++ p.command ++ "\n\"\"\"\n" ++
        "\x7d\n\n")) ++ schedulerSection ⟨"None", ""⟩ :=
  C6_process_blocks ⟨"", "", "", ""⟩ [] [⟨"align", "bwa mem", "ref.fa", "out.bam"⟩]
    ⟨"None", none, none⟩ none ⟨"None", ""⟩ _ rfl

theorem publishChunk_ne_debug (d : String) :
    "process.publishDir = '" ++ (d ++ "'\n") ≠ "process.debug = true\n" :=
  append_ne_lit _ _ _ 8 (by decide) (by decide)

theorem patternChunk_ne_debug (f : String) :
    "process.filePattern = '" ++ (f ++ "'\n") ≠ "process.debug = true\n" :=
  append_ne_lit _ _ _ 8 (by decide) (by decide)

theorem patternChunk_ne_publish (f d : String) :
    "process.filePattern = '" ++ (f ++ "'\n") ≠
      "process.publishDir = '" ++ (d ++ "'\n") :=
  append_ne_append _ _ _ _ 8 (by decide) (by decide) (by decide)

theorem patternChunk_ne_newline (f : String) :
    "process.filePattern = '" ++ (f ++ "'\n") ≠ "\n" :=
  append_ne_lit _ _ _ 0 (by decide) (by decide)

theorem debug_ne_newline : ("process.debug = true\n" : String) ≠ "\n" := by
  decide

theorem queueChunk_ne_executor (q s : String) :
    "process.queue = '" ++ (q ++ "'\n") ≠
      "process.executor = '" ++ (s ++ "'\n") :=
  append_ne_append _ _ _ _ 8 (by decide) (by decide) (by decide)

theorem queueChunk_ne_comment (q : String) :
    "process.queue = '" ++ (q ++ "'\n") ≠ "// Scheduler Settings\n" :=
  append_ne_lit _ _ _ 0 (by decide) (by decide)

theorem queueChunk_ne_newline (q : String) :
    "process.queue = '" ++ (q ++ "'\n") ≠ "\n" :=
  append_ne_lit _ _ _ 0 (by decide) (by decide)

/-- C5.  In the output-configuration block: the publish-directory line is
emitted unconditionally (whenever the record is present); the debug line
`process.debug = true` is emitted if and only if `generate_logs` is true;
the file-naming line is emitted if and only if `file_naming` is non-empty;
an absent or empty record skips the block entirely; and the block (possibly
empty) appears verbatim in the generated output, the generation never
failing on account of the output record. -/
theorem C5_output_block (oc : Option OutputConfig) :
    (∀ c, oc = some c →
        ("process.publishDir = '" ++ (c.output_dir ++ "'\n")) ∈ outputChunks oc)
  ∧ (("process.debug = true\n" ∈ outputChunks oc) ↔
        ∃ c, oc = some c ∧ c.generate_logs = true)
  ∧ (∀ c, oc = some c →
        ((("process.filePattern = '" ++ (c.file_naming ++ "'\n")) ∈
            outputChunks oc) ↔ c.file_naming ≠ ""))
  ∧ outputChunks none = []
  ∧ (∀ pi ps procs env sch out,
        generate_nextflow_file pi ps procs env oc sch = Except.ok out →
        ContainsStr (outputSection oc) out) := by
  refine ⟨?_, ⟨?_, ?_⟩, ?_, rfl, ?_⟩
  · rintro c rfl
    simp [outputChunks]
  · intro hmem
    cases oc with
    | none => simp [outputChunks] at hmem
    | some c =>
      refine ⟨c, rfl, ?_⟩
      by_contra hgl
      rw [Bool.not_eq_true] at hgl
      by_cases hf : c.file_naming = ""
      · have hch : outputChunks (some c) =
            ["process.publishDir = '" ++ (c.output_dir ++ "'\n"), "\n"] := by
          simp [outputChunks, hgl, hf]
        rw [hch] at hmem
        rcases List.mem_cons.mp hmem with h | h
        · exact (publishChunk_ne_debug c.output_dir).symm h
        · exact debug_ne_newline (List.mem_singleton.mp h)
      · have hch : outputChunks (some c) =
            ["process.publishDir = '" ++ (c.output_dir ++ "'\n"),
             "process.filePattern = '" ++ (c.file_naming ++ "'\n"), "\n"] := by
          simp [outputChunks, hgl, hf]
        rw [hch] at hmem
        rcases List.mem_cons.mp hmem with h | h
        · exact (publishChunk_ne_debug c.output_dir).symm h
        rcases List.mem_cons.mp h with h' | h'
        · exact (patternChunk_ne_debug c.file_naming).symm h'
        · exact debug_ne_newline (List.mem_singleton.mp h')
  · rintro ⟨c, rfl, hgl⟩
    by_cases hf : c.file_naming = "" <;> simp [outputChunks, hgl, hf]
  · rintro c rfl
    constructor
    · intro hmem hf
      rw [hf] at hmem
      by_cases hgl : c.generate_logs
      · have hch : outputChunks (some c) =
            ["process.publishDir = '" ++ (c.output_dir ++ "'\n"),
             "process.debug = true\n", "\n"] := by
          simp [outputChunks, hgl, hf]
        rw [hch] at hmem
        rcases List.mem_cons.mp hmem with h | h
        · exact patternChunk_ne_publish "" c.output_dir h
        rcases List.mem_cons.mp h with h' | h'
        · exact patternChunk_ne_debug "" h'
        · exact patternChunk_ne_newline "" (List.mem_singleton.mp h')
      · rw [Bool.not_eq_true] at hgl
        have hch : outputChunks (some c) =
            ["process.publishDir = '" ++ (c.output_dir ++ "'\n"), "\n"] := by
          simp [outputChunks, hgl, hf]
        rw [hch] at hmem
        rcases List.mem_cons.mp hmem with h | h
        · exact patternChunk_ne_publish "" c.output_dir h
        · exact patternChunk_ne_newline "" (List.mem_singleton.mp h)
    · intro hf
      by_cases hgl : c.generate_logs <;> simp [outputChunks, hf, hgl]
  · intro pi ps procs env sch out hgen
    obtain ⟨envStr, henv, hout⟩ := generate_ok_inv pi ps procs env oc sch out hgen
    subst hout
    apply containsStr_append_right
    apply containsStr_append_right
    apply containsStr_append_left
    exact containsStr_self (outputSection oc)

theorem C5_witness :
    ("process.publishDir = '" ++ ("results/" ++ "'\n")) ∈
        outputChunks (some ⟨"results/", true, ""⟩)
  ∧ ("process.debug = true\n" ∈ outputChunks (some ⟨"results/", true, ""⟩))
  ∧ (("process.filePattern = '" ++ ("" ++ "'\n")) ∈
        outputChunks (some ⟨"results/", true, ""⟩) ↔ ("" : String) ≠ "")
  ∧ ContainsStr (outputSection (some ⟨"results/", true, ""⟩))
      (headerText ⟨"", "", "", ""⟩ ++ paramsSection [] ++ "" ++
        outputSection (some ⟨"results/", true, ""⟩) ++ processesSection [] ++
        schedulerSection ⟨"None", ""⟩) :=
  ⟨(C5_output_block (some ⟨"results/", true, ""⟩)).1 ⟨"results/", true, ""⟩ rfl,
   (C5_output_block (some ⟨"results/", true, ""⟩)).2.1.mpr
     ⟨⟨"results/", true, ""⟩, rfl, rfl⟩,
   (C5_output_block (some ⟨"results/", true, ""⟩)).2.2.1 ⟨"results/", true, ""⟩ rfl,
   (C5_output_block (some ⟨"results/", true, ""⟩)).2.2.2.2 ⟨"", "", "", ""⟩ [] []
     ⟨"None", none, none⟩ ⟨"None", ""⟩ _ rfl⟩

/-- C7.  In the scheduler block: the executor assignment line is emitted if
and only if the scheduler is not "None", and the queue assignment line is
emitted if and only if the scheduler is not "None" and the queue is
non-empty; the block appears verbatim in the generated output. -/
theorem C7_scheduler_lines (s : SchedulerConfig) :
    (("process.executor = '" ++ (s.scheduler ++ "'\n")) ∈ schedulerChunks s ↔
      s.scheduler ≠ "None")
  ∧ (("process.queue = '" ++ (s.queue ++ "'\n")) ∈ schedulerChunks s ↔
      (s.scheduler ≠ "None" ∧ s.queue ≠ ""))
  ∧ (∀ pi ps procs env oc out,
      generate_nextflow_file pi ps procs env oc s = Except.ok out →
      ContainsStr (schedulerSection s) out) := by
  refine ⟨⟨?_, ?_⟩, ⟨?_, ?_⟩, ?_⟩
  · intro hmem hn
    simp [schedulerChunks, hn] at hmem
  · intro hn
    by_cases hq : s.queue = "" <;> simp [schedulerChunks, hn, hq]
  · intro hmem
    constructor
    · intro hn
      simp [schedulerChunks, hn] at hmem
    · intro hq
      by_cases hn : s.scheduler = "None"
      · simp [schedulerChunks, hn] at hmem
      · rw [hq] at hmem
        have hch : schedulerChunks s =
            ["// Scheduler Settings\n",
             "process.executor = '" ++ (s.scheduler ++ "'\n"), "\n"] := by
          simp [schedulerChunks, hn, hq]
        rw [hch] at hmem
        rcases List.mem_cons.mp hmem with h | h
        · exact queueChunk_ne_comment "" h
        rcases List.mem_cons.mp h with h' | h'
        · exact queueChunk_ne_executor "" s.scheduler h'
        · exact queueChunk_ne_newline "" (List.mem_singleton.mp h')
  · rintro ⟨hn, hq⟩
    simp [schedulerChunks, hn, hq]
  · intro pi ps procs env oc out hgen
    obtain ⟨envStr, henv, hout⟩ := generate_ok_inv pi ps procs env oc s out hgen
    subst hout
    apply containsStr_append_left
    exact containsStr_self (schedulerSection s)

theorem C7_witness :
    ("process.executor = '" ++ ("SLURM" ++ "'\n")) ∈
        schedulerChunks ⟨"SLURM", "bioq"⟩
  ∧ ("process.queue = '" ++ ("bioq" ++ "'\n")) ∈
        schedulerChunks ⟨"SLURM", "bioq"⟩
  ∧ ContainsStr (schedulerSection ⟨"SLURM", "bioq"⟩)
      (headerText ⟨"", "", "", ""⟩ ++ paramsSection [] ++ "" ++
        outputSection none ++ processesSection [] ++
        schedulerSection ⟨"SLURM", "bioq"⟩) :=
  ⟨(C7_scheduler_lines ⟨"SLURM", "bioq"⟩).1.mpr (by decide),
   (C7_scheduler_lines ⟨"SLURM", "bioq"⟩).2.1.mpr ⟨by decide, by decide⟩,
   (C7_scheduler_lines ⟨"SLURM", "bioq"⟩).2.2 ⟨"", "", "", ""⟩ [] []
     ⟨"None", none, none⟩ none _ rfl⟩

theorem containsStr_quoted (p v q tail : String) :
    ContainsStr (p ++ (v ++ q)) (p ++ (v ++ (q ++ tail))) :=
  ⟨[], tail.data, by simp [String.data_append, List.append_assoc]⟩

theorem containsStr_quote_chunk (p v tail w : String) (hw : w = "'" ++ tail) :
    ContainsStr (p ++ (v ++ "'")) (p ++ (v ++ w)) := by
  subst hw
  exact containsStr_quoted p v "'" tail

/-- C10.  None of the values the assembler wraps in single quotes is escaped
or sanitized: the docker image, conda file name, output directory, file
naming pattern, queue name and String-typed parameter defaults are inserted
verbatim between the quotes, so any single-quote characters they contain
appear unaltered inside the quoted segment of the generated line. -/
theorem C10_verbatim_quoting (v : String) :
    (∀ pi ps procs cf oc sch out,
        generate_nextflow_file pi ps procs ⟨"Docker", some v, cf⟩ oc sch =
          Except.ok out →
        ContainsStr ("process.container = '" ++ (v ++ "'")) out)
  ∧ (∀ pi ps procs di oc sch out, v ≠ "" →
        generate_nextflow_file pi ps procs ⟨"Conda", di, some v⟩ oc sch =
          Except.ok out →
        ContainsStr ("process.conda = '" ++ (v ++ "'")) out)
  ∧ (∀ pi ps procs env gl fn sch out,
        generate_nextflow_file pi ps procs env (some ⟨v, gl, fn⟩) sch =
          Except.ok out →
        ContainsStr ("process.publishDir = '" ++ (v ++ "'")) out)
  ∧ (∀ pi ps procs env d gl sch out, v ≠ "" →
        generate_nextflow_file pi ps procs env (some ⟨d, gl, v⟩) sch =
          Except.ok out →
        ContainsStr ("process.filePattern = '" ++ (v ++ "'")) out)
  ∧ (∀ pi ps procs env oc schName out, schName ≠ "None" → v ≠ "" →
        generate_nextflow_file pi ps procs env oc ⟨schName, v⟩ =
          Except.ok out →
        ContainsStr ("process.queue = '" ++ (v ++ "'")) out)
  ∧ (∀ pi ps procs env oc sch out p, p ∈ ps → p.type = "String" →
        p.default = v →
        generate_nextflow_file pi ps procs env oc sch = Except.ok out →
        ContainsStr ("'" ++ (v ++ "'")) out) := by
  refine ⟨?_, ?_, ?_, ?_, ?_, ?_⟩
  · intro pi ps procs cf oc sch out hgen
    have henv : envSection ⟨"Docker", some v, cf⟩ =
        Except.ok ("process.container = '" ++ (v ++ "'\n\n")) := by
      simp [envSection, getKey, Except.map]
    rw [generate_eq pi ps procs _ oc sch _ henv] at hgen
    cases hgen
    apply containsStr_append_right
    apply containsStr_append_right
    apply containsStr_append_right
    apply containsStr_append_left
    exact containsStr_quote_chunk _ v "\n\n" _ rfl
  · intro pi ps procs di oc sch out hv hgen
    have henv : envSection ⟨"Conda", di, some v⟩ =
        Except.ok ("process.conda = '" ++ (v ++ "'\n\n")) := by
      simp [envSection, getKey, Except.map, hv]
    rw [generate_eq pi ps procs _ oc sch _ henv] at hgen
    cases hgen
    apply containsStr_append_right
    apply containsStr_append_right
    apply containsStr_append_right
    apply containsStr_append_left
    exact containsStr_quote_chunk _ v "\n\n" _ rfl
  · intro pi ps procs env gl fn sch out hgen
    obtain ⟨envStr, henv, hout⟩ :=
      generate_ok_inv pi ps procs env _ sch out hgen
    subst hout
    apply containsStr_append_right
    apply containsStr_append_right
    apply containsStr_append_left
    refine containsStr_trans (containsStr_quote_chunk _ v "\n" _ rfl)
      (containsStr_joinAll ?_)
    simp [outputChunks]
  · intro pi ps procs env d gl sch out hv hgen
    obtain ⟨envStr, henv, hout⟩ :=
      generate_ok_inv pi ps procs env _ sch out hgen
    subst hout
    apply containsStr_append_right
    apply containsStr_append_right
    apply containsStr_append_left
    refine containsStr_trans (containsStr_quote_chunk _ v "\n" _ rfl)
      (containsStr_joinAll ?_)
    simp [outputChunks, hv]
  · intro pi ps procs env oc schName out hn hv hgen
    obtain ⟨envStr, henv, hout⟩ :=
      generate_ok_inv pi ps procs env oc _ out hgen
    subst hout
    apply containsStr_append_left
    refine containsStr_trans (containsStr_quote_chunk _ v "\n" _ rfl)
      (containsStr_joinAll ?_)
    simp [schedulerChunks, hn, hv]
  · intro pi ps procs env oc sch out p hp htype hd hgen
    refine containsStr_trans ?_ (paramLine_in_output hgen hp)
    exact ⟨("  " ++ p.name ++ " = ").data, (" // " ++ p.description ++ "\n").data,
      by simp [paramLine, htype, hd, String.data_append, List.append_assoc]⟩

theorem C10_witness :
    ContainsStr ("process.container = '" ++ ("a'b" ++ "'"))
      (headerText ⟨"", "", "", ""⟩ ++ paramsSection [] ++
        ("process.container = '" ++ ("a'b" ++ "'\n\n")) ++ outputSection none ++
        processesSection [] ++ schedulerSection ⟨"None", ""⟩) :=
  (C10_verbatim_quoting "a'b").1 ⟨"", "", "", ""⟩ [] [] none none ⟨"None", ""⟩
    _ rfl

end NextflowForge
